import Mathlib

set_option maxRecDepth 40000

/-!
Verification development for mdremind (src/main.go), a reminder daemon that
scans a notes directory for markdown task entries with `[due:: ...]`
annotations, watches the tree for changes, debounces per-path edit bursts,
and notifies when a reminder's due time matches the current minute.

Text is embedded as `List Char` (a Go string's rune sequence for the ASCII
inputs at issue).  Times are embedded at the granularity the program uses:
a wall-clock datetime (year, month, day, hour, minute) in the single
configured timezone; Go's `time.Time.Compare` on such values corresponds to
comparing absolute minute counts (`minutesAbs`) and `time.Time.Format` with
the configured layout corresponds to `formatSample`.
-/

namespace Mdremind

/-! ## Characters and basic text utilities -/

/-- Decimal digit value of a character, as Go's time parser reads digits:
`some (c - '0')` for '0'..'9' (code points 48..57), else `none`. -/
def digitVal (c : Char) : Option Nat :=
  if 48 ≤ c.toNat ∧ c.toNat ≤ 57 then some (c.toNat - 48) else none

/-- Whitespace test used by `strings.TrimSpace` (restricted to the ASCII
space characters: space, tab, newline, carriage return). -/
def isSpc (c : Char) : Bool :=
  decide (c.toNat = 32 ∨ c.toNat = 9 ∨ c.toNat = 10 ∨ c.toNat = 13)

/-- Go `strings.TrimSpace`: drop whitespace from both ends. -/
def trimSpace (s : List Char) : List Char :=
  ((s.dropWhile isSpc).reverse.dropWhile isSpc).reverse

/-- Go `strings.Split(s, " ")`: split on each single space character. -/
def splitOnSpace : List Char → List (List Char)
  | [] => [[]]
  | c :: rest =>
    if c.toNat = 32 then [] :: splitOnSpace rest
    else
      match splitOnSpace rest with
      | [] => [[c]]
      | g :: gs => (c :: g) :: gs

/-- Split a text into its '\n'-separated lines (Go regexp `(?m)` mode: `^`
and `$` anchor at line boundaries, `.` does not cross '\n'). -/
def splitLines : List Char → List (List Char)
  | [] => [[]]
  | c :: rest =>
    if c.toNat = 10 then [] :: splitLines rest
    else
      match splitLines rest with
      | [] => [[c]]
      | g :: gs => (c :: g) :: gs

/-- Go `filepath.Ext`, scanning the reversed path: the suffix starting at
the final dot of the final path element, or empty if there is none. -/
def extAux : List Char → List Char → List Char
  | [], _ => []
  | c :: rest, acc =>
    if c.toNat = 46 then c :: acc
    else if c.toNat = 47 then []
    else extAux rest (c :: acc)

/-- Go `filepath.Ext path`. -/
def pathExt (s : List Char) : List Char :=
  extAux s.reverse []

/-! ## Calendar arithmetic (Go `time` package semantics) -/

def isLeapYear (y : Nat) : Bool :=
  y % 4 = 0 && (y % 100 ≠ 0 || y % 400 = 0)

/-- Number of days in a month of a given year (Gregorian, as Go validates
day-of-month while parsing). -/
def daysInMonth (y m : Nat) : Nat :=
  if m = 2 then (if isLeapYear y then 29 else 28)
  else if m = 4 ∨ m = 6 ∨ m = 9 ∨ m = 11 then 30
  else 31

/-- Days in all years before year `y` (proleptic Gregorian from year 0):
365 per year plus one for each leap year among 0..y-1. -/
def daysBeforeYear (y : Nat) : Nat :=
  365 * y + (y + 3) / 4 - (y + 99) / 100 + (y + 399) / 400

/-- Days in the months of year `y` strictly before month `m` (months are
1-based). -/
def daysBeforeMonth (y : Nat) : Nat → Nat
  | 0 => 0
  | 1 => 0
  | m + 2 => daysBeforeMonth y (m + 1) + daysInMonth y (m + 1)

/-- A wall-clock datetime at the granularity the program manipulates:
the fields printed/parsed by the configured layout, in the configured
timezone.  `hour` is the 24-hour clock value. -/
structure DateTime where
  year : Nat
  month : Nat
  day : Nat
  hour : Nat
  minute : Nat
deriving DecidableEq, Repr

/-- The absolute instant of a wall-clock datetime, counted in minutes.
Go's `time.Time.Compare` on two times in the same zone is exactly the
comparison of these counts (the parsed reminders carry zero seconds). -/
def minutesAbs (t : DateTime) : Nat :=
  ((daysBeforeYear t.year + daysBeforeMonth t.year t.month + (t.day - 1)) * 24
      + t.hour) * 60 + t.minute

/-- A reminder as in src/main.go: a title and a due time. -/
structure Reminder where
  title : List Char
  time : DateTime
deriving DecidableEq, Repr

/-! ## Parsing the configured datetime layout

Go `time.ParseInLocation(config.ReminderDateTimeFormat, s, tz)` specialized
to the layout of the sample configuration, `"2006-01-02 3:04 PM"`:
4-digit year, '-', 2-digit month, '-', 2-digit day, ' ', 1-or-2-digit
12-hour value, ':', 2-digit minute, ' ', "AM"/"PM"; trailing input is an
error and each component is range-checked as in Go. -/

/-- Read exactly two digits. -/
def read2 : List Char → Option (Nat × List Char)
  | c1 :: c2 :: rest =>
    match digitVal c1, digitVal c2 with
    | some a, some b => some (a * 10 + b, rest)
    | _, _ => none
  | _ => none

/-- Read exactly four digits. -/
def read4 : List Char → Option (Nat × List Char)
  | c1 :: c2 :: c3 :: c4 :: rest =>
    match digitVal c1, digitVal c2, digitVal c3, digitVal c4 with
    | some a, some b, some c, some d =>
      some (((a * 10 + b) * 10 + c) * 10 + d, rest)
    | _, _, _, _ => none
  | _ => none

/-- Expect one specific character. -/
def expectC (c : Char) : List Char → Option (List Char)
  | c' :: rest => if c' = c then some rest else none
  | [] => none

/-- Read one or two digits (Go layout element "3", unpadded hour). -/
def readHour12 : List Char → Option (Nat × List Char)
  | [] => none
  | [c1] =>
    match digitVal c1 with
    | some a => some (a, [])
    | none => none
  | c1 :: c2 :: rest =>
    match digitVal c1 with
    | none => none
    | some a =>
      match digitVal c2 with
      | some b => some (a * 10 + b, rest)
      | none => some (a, c2 :: rest)

/-- Read "AM" or "PM"; `true` means PM. -/
def readAmPm : List Char → Option (Bool × List Char)
  | 'A' :: 'M' :: rest => some (false, rest)
  | 'P' :: 'M' :: rest => some (true, rest)
  | _ => none

/-- Parse the clock part `3:04 PM`: returns the 24-hour value, minute and
remaining input (12 o'clock wraps to 0 before the PM shift, as in Go). -/
def parseClock (s : List Char) : Option (Nat × Nat × List Char) :=
  match readHour12 s with
  | none => none
  | some (h12, s1) =>
    match expectC ':' s1 with
    | none => none
    | some s2 =>
      match read2 s2 with
      | none => none
      | some (min, s3) =>
        match expectC ' ' s3 with
        | none => none
        | some s4 =>
          match readAmPm s4 with
          | none => none
          | some (pm, s5) =>
            if h12 ≤ 12 ∧ min ≤ 59 then
              some ((if pm then (if h12 = 12 then 0 else h12) + 12
                     else (if h12 = 12 then 0 else h12)), min, s5)
            else none

/-- Parse a full `2006-01-02 3:04 PM` datetime; the whole input must be
consumed and month/day must be in range, as Go's parser checks. -/
def parseSample (s : List Char) : Option DateTime :=
  match read4 s with
  | none => none
  | some (y, s1) =>
    match expectC '-' s1 with
    | none => none
    | some s2 =>
      match read2 s2 with
      | none => none
      | some (mo, s3) =>
        match expectC '-' s3 with
        | none => none
        | some s4 =>
          match read2 s4 with
          | none => none
          | some (d, s5) =>
            match expectC ' ' s5 with
            | none => none
            | some s6 =>
              match parseClock s6 with
              | none => none
              | some (h, min, s7) =>
                if s7 = [] ∧ 1 ≤ mo ∧ mo ≤ 12 ∧ 1 ≤ d ∧ d ≤ daysInMonth y mo
                then some ⟨y, mo, d, h, min⟩
                else none

/-! ## Formatting with the configured layout

Go `t.Format("2006-01-02 3:04 PM")`: year zero-padded to width 4, month,
day and minute zero-padded to width 2, hour printed unpadded on the
12-hour clock, then AM/PM. -/

/-- Unpadded decimal digits of `n` (Go `appendInt` without padding). -/
def natChars (n : Nat) : List Char :=
  Nat.toDigits 10 n

/-- Two-character zero-padded decimal (Go layout elements "01","02","04"). -/
def pad2c (n : Nat) : List Char :=
  [Nat.digitChar (n / 10), Nat.digitChar (n % 10)]

/-- Year formatting for layout "2006": zero-padded to width 4. -/
def yearChars (y : Nat) : List Char :=
  if y < 10000 then
    [Nat.digitChar (y / 1000), Nat.digitChar (y / 100 % 10),
     Nat.digitChar (y / 10 % 10), Nat.digitChar (y % 10)]
  else natChars y

/-- Hour on the 12-hour clock, unpadded (layout element "3"). -/
def hour12Chars (h : Nat) : List Char :=
  natChars (if h % 12 = 0 then 12 else h % 12)

/-- "AM" for hours 0..11, "PM" otherwise. -/
def ampmChars (h : Nat) : List Char :=
  if h < 12 then ['A', 'M'] else ['P', 'M']

/-- Everything of the formatted string before the minute field. -/
def fmtHead (t : DateTime) : List Char :=
  yearChars t.year ++ '-' :: pad2c t.month ++ '-' :: pad2c t.day
    ++ ' ' :: hour12Chars t.hour ++ [':']

/-- `t.Format("2006-01-02 3:04 PM")`. -/
def formatSample (t : DateTime) : List Char :=
  fmtHead t ++ pad2c t.minute ++ ' ' :: ampmChars t.hour

/-! ## The entry regular expression

src/main.go line 60 compiles the pattern
`(?m)^ *- \[ \] *(?P<title>.*) \[due:: (?P<remind>.*?)\].*$`
and takes all submatches.  With `(?m)` every match lies inside one
'\n'-separated line, and a line matches exactly when, after its leading
spaces, it continues with the literal "- [ ]" and the remaining tail
contains an occurrence of " [due:: " that is followed by a ']'.  Go's
leftmost-first semantics make the leading space run and then the greedy
title take as much as possible, so the occurrence chosen for " [due:: " is
the last feasible one, the title runs from the end of the space run
(capped at that occurrence) up to it, and the non-greedy remind stops at
the first following ']'. -/

def dueMark : List Char := (" [due:: ").data

def boxMark : List Char := ("- [ ]").data

/-- Is there an occurrence of " [due:: " at position `p` of `tail`, with a
closing ']' somewhere after it? -/
def isDueAt (tail : List Char) (p : Nat) : Bool :=
  decide ((tail.drop p).take 8 = dueMark) && (tail.drop (p + 8)).contains ']'

/-- Position of the last feasible " [due:: " occurrence (the one the greedy
title selects), if any. -/
def lastDuePos (tail : List Char) : Option Nat :=
  ((List.range tail.length).filter (fun p => isDueAt tail p)).getLast?

/-- Match one line against the entry regex; returns the `title` and
`remind` submatches. -/
def matchLine (line : List Char) : Option (List Char × List Char) :=
  let s := line.dropWhile (fun c => decide (c.toNat = 32))
  if s.take 5 = boxMark then
    let tail := s.drop 5
    match lastDuePos tail with
    | none => none
    | some p =>
      let lead := (tail.takeWhile (fun c => decide (c.toNat = 32))).length
      let st := min lead p
      some ((tail.drop st).take (p - st),
            (tail.drop (p + 8)).takeWhile (fun c => !(decide (c = ']'))))
  else none

/-- All submatch pairs of `reg.FindAllSubmatch(fileContents, -1)`. -/
def matchEntries (text : List Char) : List (List Char × List Char) :=
  (splitLines text).filterMap matchLine

/-! ## parseReminderEntries (src/main.go lines 59-81)

The datetime parser is a parameter (Go parses against the configured
format string `config.ReminderDateTimeFormat`); concrete claims
instantiate it with `parseSample`.  `default` is
`config.DefaultReminderTimeOfDay`. -/

/-- The default-time-of-day completion: when the (trimmed) due value
splits on " " into a single field — a date with no time — the default
time of day is appended after a space. -/
def applyDefaultTod (defaultTod d : List Char) : List Char :=
  if (splitOnSpace d).length = 1 then d ++ ' ' :: defaultTod else d

/-- The per-match body of the loop: trim the remind text, append the
default time of day when it has no space (a date-only value), parse; a
parse failure yields `none` (the loop logs and continues). -/
def convertEntry (parse : List Char → Option DateTime)
    (defaultTod : List Char) (m : List Char × List Char) : Option Reminder :=
  (parse (applyDefaultTod defaultTod (trimSpace m.2))).map (fun dt => ⟨m.1, dt⟩)

/-- The loop of `parseReminderEntries`: append each successfully parsed
entry, skip the rest. -/
def collectReminders (parse : List Char → Option DateTime)
    (defaultTod : List Char) : List (List Char × List Char) → List Reminder
  | [] => []
  | m :: rest =>
    match convertEntry parse defaultTod m with
    | none => collectReminders parse defaultTod rest
    | some r => r :: collectReminders parse defaultTod rest

/-- `parseReminderEntries(fileContents)`. -/
def parseReminderEntries (parse : List Char → Option DateTime)
    (defaultTod : List Char) (text : List Char) : List Reminder :=
  collectReminders parse defaultTod (matchEntries text)

/-! ## loadReminders (src/main.go lines 156-172)

The filesystem is abstracted by the outcome of
`findMarkdownFiles(notesDir)` (an `Except` carrying the walk error, since
a walk error aborts the whole scan) and by a `readFile` oracle
(`os.ReadFile`, `none` on error).  `loadReminders` calls `log.Fatalf`
when the scan fails — the returned `.error` value models process
termination — and merely logs and skips a file whose read fails. -/

def loadRemindersE (scanResult : Except (List Char) (List (List Char)))
    (readFile : List Char → Option (List Char))
    (parse : List Char → Option DateTime) (defaultTod : List Char) :
    Except (List Char) (List Reminder) :=
  match scanResult with
  | .error e => .error e
  | .ok files =>
    .ok (files.foldl
      (fun acc f =>
        match readFile f with
        | none => acc
        | some contents => acc ++ parseReminderEntries parse defaultTod contents)
      [])

/-- Modelled from the spec: section 4.3 / section 7 describe a rebuild
that, on scan failure, leaves the previously published `ReminderSet`
current and continues running ("on scan failure the previous snapshot
remains published ... during steady-state operation it aborts that rebuild
attempt only, leaving the previous snapshot intact").  No such fallback
exists in src/main.go; this definition follows the spec's words for
comparison with `loadRemindersE`. -/
def specRebuildKeepPrev (prev : List Reminder)
    (scanResult : Except (List Char) (List (List Char)))
    (readFile : List Char → Option (List Char))
    (parse : List Char → Option DateTime) (defaultTod : List Char) :
    Except (List Char) (List Reminder) :=
  match loadRemindersE scanResult readFile parse defaultTod with
  | .error _ => .ok prev
  | .ok rs => .ok rs

/-! ## The watcher event handler (src/main.go lines 195-229)

One iteration of the event loop for a single filesystem event.  `stat`
models `os.Stat`: `some b` on success with `b` the `IsDir()` answer,
`none` on error. -/

inductive FsOp where
  | create
  | write
  | remove
  | rename
  | chmod
deriving DecidableEq, Repr

structure FsEvent where
  name : List Char
  ops : List FsOp
deriving DecidableEq, Repr

/-- What one pass of the event loop does with an event: which path is
handed to `watcher.Add`, whether `loadReminders` runs inline
(the `Remove` branch), and which path's debounce timer is (re)armed. -/
structure EventAction where
  watchAdd : Option (List Char)
  immediateRebuild : Bool
  armDebounce : Option (List Char)
deriving DecidableEq, Repr

def mdExt : List Char := (".md").data

def handleEvent (stat : List Char → Option Bool) (e : FsEvent) : EventAction :=
  if e.ops.contains .create ∧ stat e.name = some true then
    { watchAdd := some e.name, immediateRebuild := false, armDebounce := none }
  else if pathExt e.name ≠ mdExt then
    { watchAdd := none, immediateRebuild := false, armDebounce := none }
  else
    { watchAdd := none,
      immediateRebuild := e.ops.contains .remove,
      armDebounce :=
        if e.ops.contains .create ∨ e.ops.contains .write then some e.name
        else none }

/-! ## watchDirRecursive, as the spec reads it (for claim C3)

Modelled from the spec: section 4.4 requires that on `Create` for a
directory the program "begin watching that directory (and recursively
everything beneath it, honoring the ignore-set)".  The event loop only
calls `watcher.Add(fsEvent.Name)` on the single created directory, so the
recursive ignore-honoring watch set is defined here from the spec's words,
over a directory tree rooted at the created path. -/

inductive DirTree where
  | node (name : List Char) (subs : List DirTree)

mutual

/-- Modelled from the spec: the set of directories a recursive,
ignore-honoring watch of `t` (whose parent path is `pre`) would add. -/
def specWatchTree (ignored : List (List Char)) (pre : List Char) :
    DirTree → List (List Char)
  | .node n subs =>
    if n ∈ ignored then []
    else (pre ++ '/' :: n) :: specWatchForest ignored (pre ++ '/' :: n) subs

/-- Modelled from the spec: recursive watch set of a list of subtrees. -/
def specWatchForest (ignored : List (List Char)) (pre : List Char) :
    List DirTree → List (List Char)
  | [] => []
  | t :: ts => specWatchTree ignored pre t ++ specWatchForest ignored pre ts

end

/-! ## The debounce timer table (src/main.go lines 192-229)

Events that reach the `Create`/`Write` branch `Reset` the path's timer to
fire `debounceWindowMs` later; a timer whose deadline passes with no
further event for its path fires once, invoking `loadReminders`.  The
state machine processes the armed events in time order: timers whose
deadline lies strictly before the current event's time have fired; the
current event's path gets a fresh deadline.  After the last event every
still-armed timer eventually fires. -/

def debounceWindowMs : Nat := 100

structure DebState where
  timers : List (String × Nat)
  fires : Nat
deriving DecidableEq, Repr

def stepEvent (s : DebState) (e : Nat × String) : DebState :=
  { timers :=
      s.timers.filter (fun pt => !(decide (pt.2 < e.1)) && !(decide (pt.1 = e.2)))
        ++ [(e.2, e.1 + debounceWindowMs)],
    fires := s.fires + s.timers.countP (fun pt => decide (pt.2 < e.1)) }

/-- Total number of debounce-triggered rebuilds for a finite stream of
armed events `(time, path)` given in chronological order: fires during the
stream plus the timers still pending at its end. -/
def runDebounce (events : List (Nat × String)) : Nat :=
  let final := events.foldl stepEvent ⟨[], 0⟩
  final.fires + final.timers.length

/-! ## The scheduler (remindLoop, src/main.go lines 123-136) -/

/-- The startup catch-up pass: every reminder of the initial set whose due
instant is at or before `now` (`reminder.Time.Compare(time.Now()) <= 0`)
is delivered. -/
def catchUpPass (now : DateTime) (rs : List Reminder) : List Reminder :=
  rs.filter (fun r => decide (minutesAbs r.time ≤ minutesAbs now))

/-- One periodic tick: every reminder of the current snapshot whose due
time, formatted with the configured layout, is string-equal to the
formatted current time is delivered. -/
def tickPass (snap : List Reminder) (now : DateTime) : List Reminder :=
  snap.filter (fun r => decide (formatSample r.time = formatSample now))

/-- All deliveries of the scheduler through its first `n` ticks: the
catch-up pass over the initial set (run once, before the loop), then one
`tickPass` per tick over the snapshot current at that tick. -/
def deliveriesUpTo (initial : List Reminder) (snaps : Nat → List Reminder)
    (now0 : DateTime) (tickTime : Nat → DateTime) (n : Nat) : List Reminder :=
  catchUpPass now0 initial
    ++ (List.range n).flatMap (fun k => tickPass (snaps k) (tickTime k))

/-- One minute after `t` on the calendar (used to state claim C7's
"due one minute later" scenario). -/
def addOneMinute (t : DateTime) : DateTime :=
  if t.minute + 1 ≤ 59 then ⟨t.year, t.month, t.day, t.hour, t.minute + 1⟩
  else if t.hour + 1 ≤ 23 then ⟨t.year, t.month, t.day, t.hour + 1, 0⟩
  else if t.day + 1 ≤ daysInMonth t.year t.month then
    ⟨t.year, t.month, t.day + 1, 0, 0⟩
  else if t.month + 1 ≤ 12 then ⟨t.year, t.month + 1, 1, 0, 0⟩
  else ⟨t.year + 1, 1, 1, 0, 0⟩

/-! ## Helper lemmas -/

theorem collect_eq_filterMap (parse : List Char → Option DateTime)
    (defaultTod : List Char) (ms : List (List Char × List Char)) :
    collectReminders parse defaultTod ms = ms.filterMap (convertEntry parse defaultTod) := by
  induction ms with
  | nil => rfl
  | cons m rest ih =>
    rw [collectReminders, List.filterMap_cons]
    cases h : convertEntry parse defaultTod m <;> simp [h, ih]

theorem digitVal_bounds {c : Char} {a : Nat} (h : digitVal c = some a) :
    48 ≤ c.toNat ∧ c.toNat ≤ 57 := by
  rw [digitVal] at h
  split at h
  · next hcond => exact hcond
  · exact Option.noConfusion h

theorem digit_not_spc {c : Char} {a : Nat} (h : digitVal c = some a) :
    isSpc c = false := by
  have hb := digitVal_bounds h
  rw [isSpc]
  simp only [decide_eq_false_iff_not]
  omega

theorem digit_toNat_ne_32 {c : Char} {a : Nat} (h : digitVal c = some a) :
    c.toNat ≠ 32 := by
  have hb := digitVal_bounds h
  omega

theorem dropWhile_all_false (f : Char → Bool) (s : List Char)
    (h : ∀ c ∈ s, f c = false) : s.dropWhile f = s := by
  cases s with
  | nil => rfl
  | cons c rest =>
    rw [List.dropWhile_cons, h c (List.mem_cons_self _ _)]
    simp

theorem trimSpace_eq_self (s : List Char) (h : ∀ c ∈ s, isSpc c = false) :
    trimSpace s = s := by
  rw [trimSpace]
  rw [dropWhile_all_false isSpc s h]
  rw [dropWhile_all_false isSpc s.reverse
    (fun c hc => h c (List.mem_reverse.mp hc))]
  exact List.reverse_reverse s

theorem splitOnSpace_no_space :
    ∀ (s : List Char), (∀ c ∈ s, c.toNat ≠ 32) → splitOnSpace s = [s] := by
  intro s
  induction s with
  | nil =>
    intro
    rfl
  | cons c rest ih =>
    intro h
    rw [splitOnSpace]
    rw [if_neg (h c (List.mem_cons_self _ _))]
    rw [ih (fun x hx => h x (List.mem_cons_of_mem _ hx))]

theorem digitChar_inj10 :
    ∀ a b : Fin 10, Nat.digitChar a.val = Nat.digitChar b.val → a = b := by
  decide

theorem pad2c_inj {m n : Nat} (hm : m < 100) (hn : n < 100)
    (h : pad2c m = pad2c n) : m = n := by
  rw [pad2c, pad2c] at h
  injection h with h1 h'
  injection h' with h2 _
  have e1 := digitChar_inj10 ⟨m / 10, by omega⟩ ⟨n / 10, by omega⟩ h1
  have e2 := digitChar_inj10 ⟨m % 10, by omega⟩ ⟨n % 10, by omega⟩ h2
  have v1 : m / 10 = n / 10 := congrArg Fin.val e1
  have v2 : m % 10 = n % 10 := congrArg Fin.val e2
  omega

theorem length_ampm_tail (t : DateTime) :
    (' ' :: ampmChars t.hour).length = 3 := by
  rw [ampmChars]
  split <;> rfl

/-- The formatted strings of two datetimes with different minute fields
(both below 100, so the minute field is its two padded digits) differ:
the layout ends in the fixed-width minute, space and AM/PM fields. -/
theorem formatSample_minute_ne {t u : DateTime} (ht : t.minute < 100)
    (hu : u.minute < 100) (hne : t.minute ≠ u.minute) :
    formatSample t ≠ formatSample u := by
  intro h
  rw [formatSample, formatSample] at h
  have h3 := List.append_inj' h
    ((length_ampm_tail t).trans (length_ampm_tail u).symm)
  have h2 := List.append_inj' h3.1
    (rfl : (pad2c t.minute).length = (pad2c u.minute).length)
  exact hne (pad2c_inj ht hu h2.2)

theorem addOneMinute_minute (t : DateTime) :
    (addOneMinute t).minute = if t.minute + 1 ≤ 59 then t.minute + 1 else 0 := by
  rw [addOneMinute]
  by_cases h1 : t.minute + 1 ≤ 59
  · rw [if_pos h1, if_pos h1]
  · rw [if_neg h1, if_neg h1]
    by_cases h2 : t.hour + 1 ≤ 23
    · rw [if_pos h2]
    · rw [if_neg h2]
      by_cases h3 : t.day + 1 ≤ daysInMonth t.year t.month
      · rw [if_pos h3]
      · rw [if_neg h3]
        by_cases h4 : t.month + 1 ≤ 12
        · rw [if_pos h4]
        · rw [if_neg h4]

/-! ## Claim theorems -/

/-- C1 counterexample: the claim says a failed tree scan after startup
leaves the previously published set current and the process alive, but
`loadReminders` reacts to a scan error with `log.Fatalf` in every rebuild
(modelled as the `.error` outcome); at this concrete failing scan the
rebuild does not produce the previous set. -/
theorem claim_C1_cex :
    loadRemindersE (.error (("permission denied").data)) (fun _ => none)
        parseSample (("09:00 AM").data)
      = .error (("permission denied").data)
    ∧ specRebuildKeepPrev [⟨("r").data, ⟨2024, 1, 1, 9, 0⟩⟩]
        (.error (("permission denied").data)) (fun _ => none)
        parseSample (("09:00 AM").data)
      = .ok [⟨("r").data, ⟨2024, 1, 1, 9, 0⟩⟩]
    ∧ loadRemindersE (.error (("permission denied").data)) (fun _ => none)
        parseSample (("09:00 AM").data)
      ≠ .ok [⟨("r").data, ⟨2024, 1, 1, 9, 0⟩⟩] :=
  ⟨rfl, rfl, fun h => Except.noConfusion h⟩

/-- C1 (amended): a tree-scan failure is fatal in every rebuild, at
startup and afterwards alike — `loadReminders` propagates it via
`log.Fatalf` and no previous snapshot is kept; only a failure to read an
individual file is skipped, with the remaining files still processed. -/
theorem claim_C1 :
    (∀ (e : List Char) (readFile : List Char → Option (List Char))
        (parse : List Char → Option DateTime) (defaultTod : List Char),
      loadRemindersE (.error e) readFile parse defaultTod = .error e)
    ∧ (∀ (f : List Char) (files : List (List Char))
        (readFile : List Char → Option (List Char))
        (parse : List Char → Option DateTime) (defaultTod : List Char),
      readFile f = none →
      loadRemindersE (.ok (f :: files)) readFile parse defaultTod
        = loadRemindersE (.ok files) readFile parse defaultTod) := by
  constructor
  · intro e readFile parse defaultTod
    rfl
  · intro f files readFile parse defaultTod h
    simp [loadRemindersE, List.foldl_cons, h]

/-- Witness for the amended C1 at a concrete failing scan and a concrete
unreadable file. -/
theorem claim_C1_witness :
    loadRemindersE (.error (("EACCES").data)) (fun _ => none) parseSample
        (("09:00 AM").data)
      = .error (("EACCES").data)
    ∧ loadRemindersE (.ok [("bad.md").data]) (fun _ => none) parseSample
        (("09:00 AM").data)
      = loadRemindersE (.ok []) (fun _ => none) parseSample (("09:00 AM").data) :=
  ⟨claim_C1.1 (("EACCES").data) (fun _ => none) parseSample (("09:00 AM").data),
   claim_C1.2 (("bad.md").data) [] (fun _ => none) parseSample (("09:00 AM").data) rfl⟩

/-- C3 counterexample: on `Create` of directory "n/a" which contains a
subdirectory "b", the event loop hands exactly "n/a" to `watcher.Add`; the
recursive ignore-honoring watch the claim describes would also watch
"n/a/b".  Moreover a created directory whose basename is in the ignore-set
(".git") is still added. -/
theorem claim_C3_cex :
    (handleEvent (fun _ => some true) ⟨("n/a").data, [FsOp.create]⟩).watchAdd.toList
      = [("n/a").data]
    ∧ specWatchTree [(".git").data] (("n").data)
        (DirTree.node (("a").data) [DirTree.node (("b").data) []])
      = [("n/a").data, ("n/a/b").data]
    ∧ ("n/a/b").data ∉
        (handleEvent (fun _ => some true) ⟨("n/a").data, [FsOp.create]⟩).watchAdd.toList
    ∧ (handleEvent (fun _ => some true) ⟨("n/.git").data, [FsOp.create]⟩).watchAdd
        = some (("n/.git").data)
    ∧ (".git").data ∈ [(".git").data] := by
  decide

/-- C3 (amended): on a `Create` event whose path `os.Stat`s as a
directory, the event loop adds a watch on that single directory only — it
neither recurses into directories beneath it nor consults the ignore-set —
and does nothing else with the event (no rebuild, no debounce arm). -/
theorem claim_C3 (stat : List Char → Option Bool) (name : List Char)
    (ops : List FsOp) (hc : ops.contains FsOp.create = true)
    (hd : stat name = some true) :
    handleEvent stat ⟨name, ops⟩ =
      { watchAdd := some name, immediateRebuild := false, armDebounce := none } := by
  rw [handleEvent]
  rw [if_pos ⟨hc, hd⟩]

/-- Witness for the amended C3 at a concrete created directory. -/
theorem claim_C3_witness :
    handleEvent (fun _ => some true) ⟨("n/sub").data, [FsOp.create]⟩ =
      { watchAdd := some (("n/sub").data), immediateRebuild := false,
        armDebounce := none } :=
  claim_C3 (fun _ => some true) (("n/sub").data) [FsOp.create] (by decide) rfl

theorem countP_add_filter_not_length (l : List (String × Nat))
    (f : (String × Nat) → Bool) :
    l.countP f + (l.filter (fun x => !(f x))).length = l.length := by
  induction l with
  | nil => rfl
  | cons a l ih =>
    cases h : f a <;> simp [List.countP_cons, List.filter_cons, h] <;> omega

/-- While a burst of events for the one path `p` stays inside the quiet
window opened at `t0`, the debounce state keeps exactly one armed timer
for `p` and fires nothing: each event resets the pending timer before its
deadline. -/
theorem debounce_same_path_aux (p : String) (t0 : Nat) :
    ∀ (ts : List Nat) (tp : Nat), t0 ≤ tp →
      (∀ t ∈ ts, t0 ≤ t ∧ t < t0 + debounceWindowMs) →
      ∃ tq, t0 ≤ tq ∧
        List.foldl stepEvent ⟨[(p, tp + debounceWindowMs)], 0⟩
            (ts.map (fun t => (t, p)))
          = ⟨[(p, tq + debounceWindowMs)], 0⟩ := by
  intro ts
  induction ts with
  | nil =>
    intro tp h _
    exact ⟨tp, h, rfl⟩
  | cons t rest ih =>
    intro tp htp hall
    have h1 : t0 ≤ t := (hall t (by simp)).1
    have h2 : t < t0 + debounceWindowMs := (hall t (by simp)).2
    have hno : decide (tp + debounceWindowMs < t) = false := by
      simp only [decide_eq_false_iff_not]
      omega
    have hstep : stepEvent ⟨[(p, tp + debounceWindowMs)], 0⟩ (t, p)
        = ⟨[(p, t + debounceWindowMs)], 0⟩ := by
      rw [stepEvent]
      simp [List.filter_cons, List.countP_cons, hno]
    rw [List.map_cons, List.foldl_cons, hstep]
    exact ih t h1 (fun x hx => hall x (List.mem_cons_of_mem _ hx))

/-- Events whose paths are pairwise distinct each contribute exactly one
rebuild: the per-path timers never reset each other. -/
theorem debounce_distinct_aux :
    ∀ (events : List (Nat × String)) (s : DebState),
      List.Pairwise (fun a b => a.2 ≠ b.2) events →
      (∀ e ∈ events, ∀ pt ∈ s.timers, pt.1 ≠ e.2) →
      (List.foldl stepEvent s events).fires
          + (List.foldl stepEvent s events).timers.length
        = s.fires + s.timers.length + events.length := by
  intro events
  induction events with
  | nil =>
    intro s _ _
    simp
  | cons e rest ih =>
    intro s hpw hdisj
    have hpc := List.pairwise_cons.mp hpw
    have hstep_timers : (stepEvent s e).timers
        = s.timers.filter (fun pt => !(decide (pt.2 < e.1)))
            ++ [(e.2, e.1 + debounceWindowMs)] := by
      rw [stepEvent]
      have : s.timers.filter
            (fun pt => !(decide (pt.2 < e.1)) && !(decide (pt.1 = e.2)))
          = s.timers.filter (fun pt => !(decide (pt.2 < e.1))) := by
        apply List.filter_congr
        intro pt hpt
        have hne := hdisj e (List.mem_cons_self _ _) pt hpt
        simp [hne]
      rw [this]
    have hdisj' : ∀ e' ∈ rest, ∀ pt ∈ (stepEvent s e).timers, pt.1 ≠ e'.2 := by
      intro e' he' pt hpt
      rw [hstep_timers] at hpt
      rcases List.mem_append.mp hpt with hmem | hmem
      · exact hdisj e' (List.mem_cons_of_mem _ he') pt (List.mem_of_mem_filter hmem)
      · have hpt1 : pt.1 = e.2 := by
          simp at hmem
          rw [hmem]
        rw [hpt1]
        exact hpc.1 e' he'
    rw [List.foldl_cons, ih (stepEvent s e) hpc.2 hdisj']
    have hfires : (stepEvent s e).fires
        = s.fires + s.timers.countP (fun pt => decide (pt.2 < e.1)) := rfl
    rw [hfires, hstep_timers]
    have hsplit := countP_add_filter_not_length s.timers
      (fun pt => decide (pt.2 < e.1))
    simp only [List.length_append, List.length_cons, List.length_nil,
      List.length_cons]
    omega

/-- C4: debounce coalescing.  First part: any nonempty burst of armed
Create/Write events for one path, all inside one quiet window, triggers
exactly one rebuild (each event restarts the single per-path timer).
Second part: events for pairwise-distinct paths, each separated from the
next by more than the quiet window, trigger one rebuild each. -/
theorem claim_C4 :
    (∀ (p : String) (t0 : Nat) (ts : List Nat), ts ≠ [] →
      (∀ t ∈ ts, t0 ≤ t ∧ t < t0 + debounceWindowMs) →
      runDebounce (ts.map (fun t => (t, p))) = 1)
    ∧ (∀ events : List (Nat × String),
        List.Pairwise
          (fun a b => a.1 + debounceWindowMs < b.1 ∧ a.2 ≠ b.2) events →
        runDebounce events = events.length) := by
  constructor
  · intro p t0 ts hne hall
    cases ts with
    | nil => exact absurd rfl hne
    | cons t rest =>
      rw [runDebounce]
      have hstep0 : stepEvent ⟨[], 0⟩ (t, p)
          = ⟨[(p, t + debounceWindowMs)], 0⟩ := by
        rw [stepEvent]
        simp
      obtain ⟨tq, _, hfold⟩ := debounce_same_path_aux p t0 rest t
        (hall t (by simp)).1 (fun x hx => hall x (List.mem_cons_of_mem _ hx))
      rw [List.map_cons, List.foldl_cons, hstep0, hfold]
      rfl
  · intro events hpw
    rw [runDebounce]
    have := debounce_distinct_aux events ⟨[], 0⟩
      (hpw.imp (fun h => h.2)) (by simp)
    simpa using this

/-- Witness for C4: three events for one file inside one window yield one
rebuild; three well-separated events for three files yield three. -/
theorem claim_C4_witness :
    runDebounce ([0, 30, 60].map (fun t => (t, "a.md"))) = 1
    ∧ runDebounce [(0, "a.md"), (200, "b.md"), (400, "c.md")] = 3 :=
  ⟨claim_C4.1 "a.md" 0 [0, 30, 60] (by decide) (by decide),
   claim_C4.2 [(0, "a.md"), (200, "b.md"), (400, "c.md")] (by decide)⟩

/-- C5: a `Remove` event for a path with the ".md" extension triggers the
inline `loadReminders` rebuild in the same event-loop pass, arms no
debounce timer and adds no watch. -/
theorem claim_C5 (stat : List Char → Option Bool) (name : List Char)
    (h : pathExt name = mdExt) :
    handleEvent stat ⟨name, [FsOp.remove]⟩ =
      { watchAdd := none, immediateRebuild := true, armDebounce := none } := by
  rw [handleEvent]
  have hc : ([FsOp.remove].contains FsOp.create) = false := by decide
  rw [if_neg (by simp [hc])]
  rw [if_neg (by simp [h])]
  simp

/-- Witness for C5 at a concrete removed markdown file. -/
theorem claim_C5_witness :
    handleEvent (fun _ => none) ⟨("notes/a.md").data, [FsOp.remove]⟩ =
      { watchAdd := none, immediateRebuild := true, armDebounce := none } :=
  claim_C5 (fun _ => none) (("notes/a.md").data) (by decide)

/-- C6: the startup catch-up pass delivers a reminder of the initial set
exactly when its due instant is at or before the current instant; a
strictly future reminder is not delivered by it. -/
theorem claim_C6 (now : DateTime) (rs : List Reminder) (r : Reminder) :
    (r ∈ catchUpPass now rs ↔ r ∈ rs ∧ minutesAbs r.time ≤ minutesAbs now)
    ∧ (minutesAbs now < minutesAbs r.time → r ∉ catchUpPass now rs) := by
  constructor
  · simp [catchUpPass, List.mem_filter]
  · intro h hmem
    have h2 := (List.mem_filter.mp hmem).2
    simp only [decide_eq_true_eq] at h2
    omega

/-- Witness for C6: the spec scenario — one reminder due the previous day
is delivered by the catch-up pass, one due the next day is not. -/
theorem claim_C6_witness :
    (⟨("yesterday").data, ⟨2024, 1, 1, 9, 0⟩⟩ : Reminder) ∈
      catchUpPass ⟨2024, 1, 2, 9, 0⟩
        [⟨("yesterday").data, ⟨2024, 1, 1, 9, 0⟩⟩,
         ⟨("tomorrow").data, ⟨2024, 1, 3, 9, 0⟩⟩]
    ∧ (⟨("tomorrow").data, ⟨2024, 1, 3, 9, 0⟩⟩ : Reminder) ∉
      catchUpPass ⟨2024, 1, 2, 9, 0⟩
        [⟨("yesterday").data, ⟨2024, 1, 1, 9, 0⟩⟩,
         ⟨("tomorrow").data, ⟨2024, 1, 3, 9, 0⟩⟩] :=
  ⟨(claim_C6 ⟨2024, 1, 2, 9, 0⟩ _ _).1.mpr ⟨by decide, by decide⟩,
   (claim_C6 ⟨2024, 1, 2, 9, 0⟩ _ _).2 (by decide)⟩

/-- C7: a periodic tick delivers a reminder exactly when its due time,
rendered with the configured layout, is string-equal to the rendered
current time; in particular a reminder due one minute after the tick's
time is not delivered on that tick (its rendered minute field differs). -/
theorem claim_C7 :
    (∀ (snap : List Reminder) (now : DateTime) (r : Reminder),
      r ∈ tickPass snap now ↔
        r ∈ snap ∧ formatSample r.time = formatSample now)
    ∧ (∀ (snap : List Reminder) (now : DateTime) (r : Reminder),
        now.minute < 60 → r.time = addOneMinute now → r ∉ tickPass snap now) := by
  constructor
  · intro snap now r
    simp [tickPass, List.mem_filter]
  · intro snap now r hval heq hmem
    have h2 := (List.mem_filter.mp hmem).2
    simp only [decide_eq_true_eq] at h2
    rw [heq] at h2
    have hm := addOneMinute_minute now
    refine formatSample_minute_ne (t := addOneMinute now) (u := now) ?_ ?_ ?_ h2
    · rw [hm]
      split <;> omega
    · omega
    · rw [hm]
      split <;> omega

/-- Witness for C7: at the tick of 10:00 AM, a reminder due 10:00 AM that
minute is delivered and one due 10:01 AM (one minute later) is not. -/
theorem claim_C7_witness :
    ((⟨("now").data, ⟨2024, 6, 1, 10, 0⟩⟩ : Reminder) ∈
      tickPass [⟨("now").data, ⟨2024, 6, 1, 10, 0⟩⟩,
                ⟨("later").data, ⟨2024, 6, 1, 10, 1⟩⟩] ⟨2024, 6, 1, 10, 0⟩)
    ∧ (⟨("later").data, ⟨2024, 6, 1, 10, 1⟩⟩ : Reminder) ∉
      tickPass [⟨("now").data, ⟨2024, 6, 1, 10, 0⟩⟩,
                ⟨("later").data, ⟨2024, 6, 1, 10, 1⟩⟩] ⟨2024, 6, 1, 10, 0⟩ :=
  ⟨(claim_C7.1 _ ⟨2024, 6, 1, 10, 0⟩ _).mpr ⟨by decide, by decide⟩,
   claim_C7.2 _ ⟨2024, 6, 1, 10, 0⟩ ⟨("later").data, ⟨2024, 6, 1, 10, 1⟩⟩
     (by decide) (by decide)⟩

/-- C8: a well-formed entry whose due value is a bare date (ten characters
`DDDD-DD-DD`, hence containing no space) has the configured default time
of day substituted: whenever the completed string parses, the resulting
reminder's hour and minute are exactly those the default time of day
parses to.  In particular the spec's scenario entry parses to
January 1 2024, 09:00. -/
theorem claim_C8 :
    (∀ (title defaultTod : List Char) (c1 c2 c3 c4 c5 c6 c7 c8 : Char)
        (a1 a2 a3 a4 a5 a6 a7 a8 hh mm : Nat) (r : Reminder),
      digitVal c1 = some a1 → digitVal c2 = some a2 →
      digitVal c3 = some a3 → digitVal c4 = some a4 →
      digitVal c5 = some a5 → digitVal c6 = some a6 →
      digitVal c7 = some a7 → digitVal c8 = some a8 →
      parseClock defaultTod = some (hh, mm, []) →
      convertEntry parseSample defaultTod
          (title, [c1, c2, c3, c4, '-', c5, c6, '-', c7, c8]) = some r →
      r.time.hour = hh ∧ r.time.minute = mm)
    ∧ parseReminderEntries parseSample (("09:00 AM").data)
        (("- [ ] Pay rent [due:: 2024-01-01]").data)
      = [⟨("Pay rent").data, ⟨2024, 1, 1, 9, 0⟩⟩] := by
  constructor
  · intro title defaultTod c1 c2 c3 c4 c5 c6 c7 c8 a1 a2 a3 a4 a5 a6 a7 a8 hh mm r
    intro h1 h2 h3 h4 h5 h6 h7 h8 hclock hconv
    have hspc : ∀ c ∈ [c1, c2, c3, c4, '-', c5, c6, '-', c7, c8],
        isSpc c = false := by
      intro c hc
      simp only [List.mem_cons, List.not_mem_nil, or_false] at hc
      rcases hc with rfl | rfl | rfl | rfl | rfl | rfl | rfl | rfl | rfl | rfl
      exacts [digit_not_spc h1, digit_not_spc h2, digit_not_spc h3,
        digit_not_spc h4, by decide, digit_not_spc h5, digit_not_spc h6,
        by decide, digit_not_spc h7, digit_not_spc h8]
    have hns : ∀ c ∈ [c1, c2, c3, c4, '-', c5, c6, '-', c7, c8],
        c.toNat ≠ 32 := by
      intro c hc
      simp only [List.mem_cons, List.not_mem_nil, or_false] at hc
      rcases hc with rfl | rfl | rfl | rfl | rfl | rfl | rfl | rfl | rfl | rfl
      exacts [digit_toNat_ne_32 h1, digit_toNat_ne_32 h2, digit_toNat_ne_32 h3,
        digit_toNat_ne_32 h4, by decide, digit_toNat_ne_32 h5,
        digit_toNat_ne_32 h6, by decide, digit_toNat_ne_32 h7,
        digit_toNat_ne_32 h8]
    rw [convertEntry] at hconv
    simp only at hconv
    rw [trimSpace_eq_self _ hspc] at hconv
    rw [applyDefaultTod, splitOnSpace_no_space _ hns,
      if_pos (List.length_singleton _)] at hconv
    simp only [List.cons_append, List.nil_append] at hconv
    have hps : parseSample
        (c1 :: c2 :: c3 :: c4 :: '-' :: c5 :: c6 :: '-' :: c7 :: c8
          :: ' ' :: defaultTod)
        = if 1 ≤ a5 * 10 + a6 ∧ a5 * 10 + a6 ≤ 12 ∧ 1 ≤ a7 * 10 + a8 ∧
              a7 * 10 + a8 ≤
                daysInMonth (((a1 * 10 + a2) * 10 + a3) * 10 + a4)
                  (a5 * 10 + a6)
          then some ⟨((a1 * 10 + a2) * 10 + a3) * 10 + a4, a5 * 10 + a6,
                     a7 * 10 + a8, hh, mm⟩
          else none := by
      simp only [parseSample, read4, read2, expectC, h1, h2, h3, h4, h5, h6,
        h7, h8, hclock, reduceIte]
      simp
    rw [hps] at hconv
    split at hconv
    · rw [Option.map_some'] at hconv
      injection hconv with hr
      rw [← hr]
      exact ⟨rfl, rfl⟩
    · rw [Option.map_none'] at hconv
      exact Option.noConfusion hconv
  · decide

/-- Witness for C8: the spec's scenario entry, via the general statement
applied at the concrete digits of "2024-01-01" and default "09:00 AM". -/
theorem claim_C8_witness :
    (⟨("Pay rent").data, ⟨2024, 1, 1, 9, 0⟩⟩ : Reminder).time.hour = 9
    ∧ (⟨("Pay rent").data, ⟨2024, 1, 1, 9, 0⟩⟩ : Reminder).time.minute = 0 :=
  claim_C8.1 (("Pay rent").data) (("09:00 AM").data) '2' '0' '2' '4' '0' '1'
    '0' '1' 2 0 2 4 0 1 0 1 9 0 ⟨("Pay rent").data, ⟨2024, 1, 1, 9, 0⟩⟩
    (by decide) (by decide) (by decide) (by decide) (by decide) (by decide)
    (by decide) (by decide) (by decide) (by decide)

/-- C9: extraction yields exactly the candidate entries whose datetime
parses — a failing entry is skipped while later entries are still
extracted — and when every candidate fails (in particular when there are
no candidates) the result is empty. -/
theorem claim_C9 (parse : List Char → Option DateTime) (defaultTod : List Char)
    (text : List Char) :
    (∀ r, r ∈ parseReminderEntries parse defaultTod text ↔
      ∃ m ∈ matchEntries text, convertEntry parse defaultTod m = some r)
    ∧ ((∀ m ∈ matchEntries text, convertEntry parse defaultTod m = none) →
        parseReminderEntries parse defaultTod text = []) := by
  constructor
  · intro r
    rw [parseReminderEntries, collect_eq_filterMap]
    simp [List.mem_filterMap]
  · intro h
    rw [parseReminderEntries, collect_eq_filterMap]
    exact List.filterMap_eq_nil_iff.mpr h

/-- Witness for C9: a text whose only candidate entry has an unparseable
datetime extracts to the empty list, and a text with one bad and one good
entry extracts exactly the good one (the bad entry is skipped, extraction
continues). -/
theorem claim_C9_witness :
    parseReminderEntries parseSample (("09:00 AM").data)
        (("- [ ] X [due:: garbage]").data) = []
    ∧ (⟨("B").data, ⟨2024, 5, 6, 13, 30⟩⟩ : Reminder) ∈
        parseReminderEntries parseSample (("09:00 AM").data)
          (("- [ ] A [due:: junk]\n- [ ] B [due:: 2024-05-06 1:30 PM]").data) :=
  ⟨(claim_C9 parseSample (("09:00 AM").data) (("- [ ] X [due:: garbage]").data)).2
      (by decide),
   ((claim_C9 parseSample (("09:00 AM").data)
        (("- [ ] A [due:: junk]\n- [ ] B [due:: 2024-05-06 1:30 PM]").data)).1
      ⟨("B").data, ⟨2024, 5, 6, 13, 30⟩⟩).mpr (by decide)⟩

/-- C10: the catch-up pass runs once, over the initial set only; a
reminder absent from the initial set whose formatted due time never equals
the formatted time of any tick is never delivered, no matter what
snapshots later rebuilds publish. -/
theorem claim_C10 (initial : List Reminder) (snaps : Nat → List Reminder)
    (now0 : DateTime) (tickTime : Nat → DateTime) (r : Reminder) (n : Nat)
    (h1 : r ∉ initial)
    (h2 : ∀ k, formatSample r.time ≠ formatSample (tickTime k)) :
    r ∉ deliveriesUpTo initial snaps now0 tickTime n := by
  intro hmem
  rw [deliveriesUpTo] at hmem
  rcases List.mem_append.mp hmem with h | h
  · exact h1 (List.mem_filter.mp h).1
  · obtain ⟨k, _, hmem2⟩ := List.mem_flatMap.mp h
    have h3 := (List.mem_filter.mp hmem2).2
    simp only [decide_eq_true_eq] at h3
    exact h2 k h3

/-- Witness for C10: a reminder first appearing in the snapshot after
startup, already overdue, whose formatted time matches no tick, is not
among the deliveries of the first three ticks. -/
theorem claim_C10_witness :
    (⟨("old").data, ⟨2024, 1, 1, 9, 0⟩⟩ : Reminder) ∉
      deliveriesUpTo [] (fun _ => [⟨("old").data, ⟨2024, 1, 1, 9, 0⟩⟩])
        ⟨2024, 6, 1, 10, 0⟩ (fun _ => ⟨2024, 6, 1, 10, 1⟩) 3 := by
  apply claim_C10
  · decide
  · intro k
    decide

end Mdremind
